import Mathlib

/-!
Verification development for the transport layer of an Elasticsearch
JavaScript client.  The definitions below are a shallow embedding of
`src/Transport.ts` and of two generated endpoint builders
(`snapshot.get_repository.js`, `xpack.migration.get_assistance.js`).
Machine-level details that the embedded code never observes (event-loop
scheduling, raw sockets) are represented by explicit scripts of attempt
outcomes; all functions are executable.
-/

namespace ESTransport

/-! ## Warning-header splitting (Transport.ts line 161)

`headers['warning'].split(/(?!\B"[^"]*),(?![^"]*"\B)/)`

The first lookahead `(?!\B"[^"]*)` can never match at a comma position
(its literal `"` would have to coincide with the `,` of the main
pattern), so the regex matches exactly those commas for which the
second negative lookahead `(?![^"]*"\B)` holds.  `[^"]*"` anchored
right after the comma can only reach the first double quote after the
comma, and `\B` at the position following that quote holds iff the
quote is the last character or is followed by a non-word character.
Hence: the string is split at a comma iff either no double quote
follows it, or the first double quote after it is immediately followed
by a word character. -/

/-- JavaScript `\w`: ASCII letters, digits and underscore. -/
def isWordChar (c : Char) : Bool :=
  (('a' ≤ c && c ≤ 'z') || ('A' ≤ c && c ≤ 'Z') || ('0' ≤ c && c ≤ '9') || c = '_')

/-- The characters after the first double quote of the list, if any. -/
def firstQuoteTail : List Char → Option (List Char)
  | [] => none
  | c :: t => if c = '"' then some t else firstQuoteTail t

/-- Decision of the split regex for a comma whose suffix is `rest`:
split there iff the second lookahead `(?![^"]*"\B)` succeeds. -/
def splitAtComma (rest : List Char) : Bool :=
  match firstQuoteTail rest with
  | none => true
  | some [] => false
  | some (d :: _) => isWordChar d

/-- Prepend a character to the first field of a split result. -/
def consHead (c : Char) : List (List Char) → List (List Char)
  | [] => [[c]]
  | h :: t => (c :: h) :: t

/-- The split performed by the source regex, on character lists. -/
def warningSplit : List Char → List (List Char)
  | [] => [[]]
  | c :: t =>
    if c = ',' && splitAtComma t then [] :: warningSplit t
    else consHead c (warningSplit t)

/-- String-level warning splitting as performed by `Transport.request`. -/
def warningSplitStr (s : String) : List String :=
  (warningSplit s.toList).map List.asString

/-- Modelled from the spec: split a Warning header value on exactly the
commas that are not enclosed in double quotes (a comma counts as
enclosed when an odd number of double quotes precedes it); the flag
tracks whether the scan position is currently inside quotes. -/
def specSplitAux : Bool → List Char → List (List Char)
  | _, [] => [[]]
  | inQ, c :: t =>
    if c = ',' && !inQ then [] :: specSplitAux inQ t
    else consHead c (specSplitAux (if c = '"' then !inQ else inQ) t)

/-- Modelled from the spec: split on commas not enclosed in double quotes. -/
def specSplit (s : String) : List String :=
  (specSplitAux false s.toList).map List.asString

/-- Quote well-formedness: scanning with in-quote flag `inQ`, every
opening double quote is immediately followed by a word character, every
closing double quote is at the end or followed by a non-word character,
and no quote is left open at the end. -/
def quotesWf : Bool → List Char → Bool
  | inQ, [] => !inQ
  | inQ, c :: t =>
    if c = '"' then
      (if inQ then
        (match t with | [] => true | d :: _ => !(isWordChar d))
       else
        (match t with | [] => false | d :: _ => isWordChar d)) && quotesWf (!inQ) t
    else quotesWf inQ t

/-! ## Transport.request (Transport.ts lines 79-238)

The request orchestrator is embedded as an executable interpreter.  The
outcome of each `connection.request` call is drawn from a script of
`AttemptOutcome`s (a network-level error, or a response head followed by
a list of stream events), the single-threaded event-loop execution is
the sequential processing of those events, and all side effects
(pool calls, event emissions, callback deliveries) are recorded in an
ordered trace.  Retry recursion is modelled with explicit fuel; running
out of fuel returns the state reached so far, representing an execution
that has not yet completed.  The `once` wrapper applied to the caller's
callback at every recursion level is modelled by the single `delivered`
flag: every level's guard wraps the previous level's already-guarded
callback, so the caller receives exactly the first invocation that
occurs at any level, which is what `deliverCb` implements. -/

inductive Body
  | str (s : String)
  | streamB
  | buf (s : String)
  | obj (o : String)
deriving DecidableEq

/-- `typeof obj !== 'string' && typeof obj.pipe !== 'function' &&
Buffer.isBuffer(obj) === false` -/
def shouldSerialize : Body → Bool
  | Body.obj _ => true
  | _ => false

/-- `typeof obj.pipe === 'function'` -/
def isStream : Body → Bool
  | Body.streamB => true
  | _ => false

/-- `Buffer.byteLength` of a transport-ready payload. -/
def byteLength : Body → Nat
  | Body.str s => s.length
  | Body.buf s => s.length
  | _ => 0

structure RHeaders where
  contentType : Option String := none
  warning : Option String := none
deriving DecidableEq

inductive StreamEvent
  | data (chunk : String)
  | errEv (msg : String)
  | endEv
deriving DecidableEq

inductive NetErr
  | timeout
  | failure (msg : String)
deriving DecidableEq

inductive AttemptOutcome
  | netErr (e : NetErr)
  | resp (status : Nat) (hdrs : RHeaders) (events : List StreamEvent)
deriving DecidableEq

inductive RBody
  | null
  | bTrue
  | bFalse
  | text (s : String)
  | jsonVal (s : String)
  | streamBody
deriving DecidableEq

/-- The `ApiResponse` result object of one recursion level. -/
structure ResultRec where
  body : RBody := RBody.null
  statusCode : Option Nat := none
  headers : Option RHeaders := none
  warnings : Option (List String) := none
deriving DecidableEq

/-- The request params object.  Request headers set by the transport are
modelled as the dedicated fields `reqContentType`, `reqContentLength`
and `acceptEncoding`; `krem` is the `kRemainingAttempts` symbol slot. -/
structure Params where
  method : String := "GET"
  path : String := ""
  body : Option Body := none
  bulkBody : Option Body := none
  ignore : Option (List Nat) := none
  maxRetries : Option Nat := none
  asStream : Bool := false
  requestTimeout : Option Nat := none
  querystring : String := ""
  krem : Option Nat := none
  reqContentType : Option String := none
  reqContentLength : Option Nat := none
  acceptEncoding : Option String := none
  timeout : Nat := 0
deriving DecidableEq

inductive Err
  | noLivingConnections
  | serdeErr (msg : String)
  | timeoutErr
  | connectionError (msg : String) (params : Params)
  | responseError (r : ResultRec)
deriving DecidableEq

inductive Eff
  | sniffTrig
  | resurrect
  | connReq (body : Option Body)
  | markDead
  | markAlive
  | emitReq
  | emitResp
  | emitErr
  | deserTry
  | deliver (e : Option Err)
deriving DecidableEq

structure Cfg where
  maxRetries : Nat := 3
  requestTimeout : Nat := 30000
  suggestCompression : Bool := false
  sniffOnConnectionFault : Bool := false
  sniffEnabled : Bool := false
deriving DecidableEq

/-- External collaborators: the Serializer's four operations, whether
the pool currently yields a connection, and whether the periodic sniff
deadline has passed (`Date.now() > this._nextSniff`). -/
structure Env where
  serialize : String → Except String String
  ndserialize : String → Except String String
  deserialize : String → Except String String
  qserialize : String → String
  connAvailable : Bool
  sniffDue : Bool

/-- State threaded through a whole retry chain: the root `once` guard,
the deliveries the caller's callback received, the unconsumed script of
connection outcomes, and the ordered effect trace. -/
structure GSt where
  delivered : Bool := false
  calls : List (Option Err × ResultRec) := []
  script : List AttemptOutcome := []
  trace : List Eff := []
deriving DecidableEq

def emitEff (g : GSt) (e : Eff) : GSt :=
  { g with trace := g.trace ++ [e] }

/-- Invoke the (`once`-guarded) caller callback. -/
def deliverCb (g : GSt) (e : Option Err) (r : ResultRec) : GSt :=
  if g.delivered then g
  else { g with delivered := true, calls := g.calls ++ [(e, r)],
                trace := g.trace ++ [Eff.deliver e] }

/-- JavaScript `a || b` on a possibly-absent number: `0` is falsy. -/
def jsOrNat : Option Nat → Nat → Nat
  | some n, d => if n = 0 then d else n
  | none, d => d

/-- `params[kRemainingAttempts] || params.maxRetries || this.maxRetries` -/
def resolveAttempts (krem pmax : Option Nat) (tmax : Nat) : Nat :=
  jsOrNat krem (jsOrNat pmax tmax)

/-- Whether the first list is an initial segment of the second. -/
def leadsWith : List Char → List Char → Bool
  | [], _ => true
  | _ :: _, [] => false
  | a :: as, b :: bs => a == b && leadsWith as bs

/-- Substring containment (`indexOf(needle) > -1`). -/
def hasSub (needle : List Char) : List Char → Bool
  | [] => needle.isEmpty
  | c :: t => leadsWith needle (c :: t) || hasSub needle t

/-- `headers['content-type'] != null &&
headers['content-type'].indexOf('application/json') > -1` -/
def ctIsJson : Option String → Bool
  | some ct => hasSub "application/json".toList ct.toList
  | none => false

/-- Body handling, Transport.ts lines 90-117: serialize a JSON body or
an ndjson bulk body and set the derived Content-Type/Content-Length. -/
def prepareBody (env : Env) (p : Params) : Except String Params :=
  match p.body with
  | some b =>
    match (if shouldSerialize b then
            match b with
            | Body.obj o => (env.serialize o).map Body.str
            | _ => Except.ok b
          else Except.ok b) with
    | Except.error m => Except.error m
    | Except.ok b' =>
      let p1 := { p with body := some b', reqContentType := some "application/json" }
      Except.ok (if isStream b' then p1
                 else { p1 with reqContentLength := some (byteLength b') })
  | none =>
  match p.bulkBody with
  | some bb =>
    match (if shouldSerialize bb then
            match bb with
            | Body.obj o => (env.ndserialize o).map Body.str
            | _ => Except.ok bb
          else Except.ok bb) with
    | Except.error m => Except.error m
    | Except.ok b' =>
      let p1 := { p with body := some b', reqContentType := some "application/x-ndjson" }
      Except.ok (if isStream b' then p1
                 else { p1 with reqContentLength := some (byteLength b') })
  | none => Except.ok p

/-- Transport.ts lines 219-228: emit `response`, then deliver either a
`ResponseError` (status ≥ 400 and not ignored) or a success, casting a
HEAD 404 body to `false`.  `g` already carries the `emitResp` effect. -/
def finishResp (isHead : Bool) (ignoreSC : Bool) (status : Nat)
    (r : ResultRec) (g : GSt) : ResultRec × GSt :=
  if !ignoreSC && decide (400 ≤ status) then
    (r, deliverCb g (some (Err.responseError r)) r)
  else
    let r := if isHead && status == 404 then { r with body := RBody.bFalse } else r
    (r, deliverCb g none r)

/-- `Array.isArray(params.ignore) && params.ignore.indexOf(statusCode) > -1` -/
def inIgnoreList (p : Params) (status : Nat) : Bool :=
  match p.ignore with
  | some l => l.contains status
  | none => false

/-- Transport.ts lines 200-201: ignore the status code if the user
listed it in `params.ignore`, or for a HEAD request answered 404. -/
def ignoredStatusCode (p : Params) (status : Nat) : Bool :=
  inIgnoreList p status || (p.method == "HEAD" && status == 404)

/-- The statuses that trigger the retry strategy (line 204). -/
def retryStatusCode (status : Nat) : Bool :=
  status == 502 || status == 503 || status == 504

/-- Transport.ts lines 198-228: the part of the `end` handler after
body normalization — ignore-list check, 502/503/504 retry strategy
(mark dead, retry while attempts remain, else fall through), mark-alive
otherwise, then response delivery. -/
def endTail (recur : Params → GSt → GSt)
    (p : Params) (attempts status : Nat) (r : ResultRec) (g : GSt) :
    ResultRec × GSt :=
  let isHead := p.method == "HEAD"
  let ignoreSC := ignoredStatusCode p status
  if !ignoreSC && retryStatusCode status then
    let g := emitEff g Eff.markDead
    if 0 < attempts then
      (r, recur { p with krem := some (attempts - 1) } g)
    else
      finishResp isHead ignoreSC status r (emitEff g Eff.emitResp)
  else
    finishResp isHead ignoreSC status r
      (emitEff (emitEff g Eff.markAlive) Eff.emitResp)

/-- Transport.ts lines 176-229: the `end` handler.  Attempt JSON body
deserialization only for a json content type, a non-HEAD method and a
non-empty payload (a failure is a terminal data-format error); a HEAD
body is cast to `true`; otherwise the raw text becomes the body. -/
def endLogicF (env : Env) (recur : Params → GSt → GSt)
    (p : Params) (attempts status : Nat) (hdrs : RHeaders)
    (payload : String) (r : ResultRec) (g : GSt) : ResultRec × GSt :=
  let isHead := p.method == "HEAD"
  if ctIsJson hdrs.contentType && !isHead && !(payload == "") then
    let g := emitEff g Eff.deserTry
    match env.deserialize payload with
    | Except.error m =>
      let g := emitEff g Eff.emitErr
      (r, deliverCb g (some (Err.serdeErr m)) r)
    | Except.ok v =>
      endTail recur p attempts status { r with body := RBody.jsonVal v } g
  else
    endTail recur p attempts status
      { r with body := if isHead then RBody.bTrue else RBody.text payload } g

/-- Transport.ts lines 171-229: sequential processing of the response
stream events.  `data` accumulates the payload, `error` invokes the
guarded callback with a `ConnectionError`, `end` runs the end handler
(which may recurse into a retry). -/
def processEventsF (env : Env) (recur : Params → GSt → GSt)
    (p : Params) (attempts status : Nat) (hdrs : RHeaders) :
    List StreamEvent → String → ResultRec → GSt → ResultRec × GSt
  | [], _, r, g => (r, g)
  | StreamEvent.data c :: rest, payload, r, g =>
    processEventsF env recur p attempts status hdrs rest (payload ++ c) r g
  | StreamEvent.errEv m :: rest, payload, r, g =>
    processEventsF env recur p attempts status hdrs rest payload r
      (deliverCb g (some (Err.connectionError m p)) r)
  | StreamEvent.endEv :: rest, payload, r, g =>
    let rg := endLogicF env recur p attempts status hdrs payload r g
    processEventsF env recur p attempts status hdrs rest payload rg.1 rg.2

/-- Transport.ts lines 132-154: handling of a network-level connection
error — mark the connection dead, trigger a sniff when configured,
retry while attempts remain, otherwise surface the timeout as-is or
wrap the failure as a `ConnectionError` carrying the request params. -/
def netErrBranch (cfg : Cfg) (recur : Params → GSt → GSt)
    (p : Params) (attempts : Nat) (e : NetErr) (g : GSt) : GSt :=
  let g := emitEff g Eff.markDead
  let g := if cfg.sniffOnConnectionFault then emitEff g Eff.sniffTrig else g
  if 0 < attempts then
    recur { p with krem := some (attempts - 1) } g
  else
    let err := match e with
      | NetErr.timeout => Err.timeoutErr
      | NetErr.failure m => Err.connectionError m p
    let g := emitEff g Eff.emitErr
    deliverCb g (some err) {}

/-- Transport.ts lines 156-229: handling of a response head — record
status, headers and parsed warnings on this level's result object, then
either deliver the raw stream immediately (`asStream`) or process the
stream events. -/
def respBranch (env : Env) (recur : Params → GSt → GSt)
    (p : Params) (attempts status : Nat) (hdrs : RHeaders)
    (events : List StreamEvent) (g : GSt) : GSt :=
  let r : ResultRec := {
    statusCode := some status,
    headers := some hdrs,
    warnings := match hdrs.warning with
      | some w => some (warningSplitStr w)
      | none => none }
  if p.asStream then
    let r := { r with body := RBody.streamBody }
    let g := emitEff g Eff.emitResp
    deliverCb g none r
  else
    (processEventsF env recur p attempts status hdrs events "" r g).2

/-- The scripted `connection.request` call: emit the `request` event,
consume the next scripted outcome (an empty script models a request
that never completes) and dispatch on it. -/
def issueRequest (cfg : Cfg) (env : Env) (recur : Params → GSt → GSt)
    (p : Params) (attempts : Nat) (g : GSt) : GSt :=
  let g := emitEff g Eff.emitReq
  match g.script with
  | [] => g
  | o :: rest =>
    let g := { g with script := rest, trace := g.trace ++ [Eff.connReq p.body] }
    match o with
    | AttemptOutcome.netErr e => netErrBranch cfg recur p attempts e g
    | AttemptOutcome.resp status hdrs events =>
      respBranch env recur p attempts status hdrs events g

/-- One level of `Transport.request` (Transport.ts lines 79-238), with
the recursive retry call abstracted as `recur`: resolve the attempts
budget, select a connection (`getConnection`, lines 240-247), prepare
the body, set the derived request headers, and issue the call. -/
def requestStep (cfg : Cfg) (env : Env) (recur : Params → GSt → GSt)
    (p : Params) (g : GSt) : GSt :=
  let attempts := resolveAttempts p.krem p.maxRetries cfg.maxRetries
  let g := if cfg.sniffEnabled && env.sniffDue then emitEff g Eff.sniffTrig else g
  let g := emitEff g Eff.resurrect
  if env.connAvailable = false then
    deliverCb g (some Err.noLivingConnections) {}
  else
    match prepareBody env p with
    | Except.error m => deliverCb g (some (Err.serdeErr m)) {}
    | Except.ok p =>
      let p := if cfg.suggestCompression then
                 { p with acceptEncoding := some "gzip,deflate" }
               else p
      let p := { p with querystring := env.qserialize p.querystring,
                        timeout := jsOrNat p.requestTimeout cfg.requestTimeout }
      issueRequest cfg env recur p attempts g

/-- `Transport.request` with explicit fuel bounding the depth of the
retry recursion; exhausted fuel returns the state reached so far. -/
def requestGo (cfg : Cfg) (env : Env) : Nat → Params → GSt → GSt
  | 0, _, g => g
  | fuel + 1, p, g => requestStep cfg env (requestGo cfg env fuel) p g

/-- A whole `Transport.request` invocation against a script of
connection outcomes, starting from a fresh state. -/
def request (cfg : Cfg) (env : Env) (fuel : Nat) (p : Params)
    (script : List AttemptOutcome) : GSt :=
  requestGo cfg env fuel p { script := script }

/-! ## Transport.sniff (Transport.ts lines 249-277)

`sniff` issues a discovery GET through `this.request`; its completion
handler is modelled with the inner request's terminal outcome passed
explicitly (an error, or the response body's node list).  The returned
tuple is (new sniff state, whether a discovery request was issued, the
invocations of the caller's callback, whether the pool membership was
updated). -/

structure SniffSt where
  sniffEnabled : Bool := false
  sniffInterval : Nat := 0
  nextSniff : Nat := 0
  isSniffing : Bool := false
deriving DecidableEq

inductive SniffCb
  | err (e : String)
  | ok (hosts : String)
deriving DecidableEq

/-- `Transport.sniff`: return immediately when a run is in progress;
otherwise set the in-progress flag, issue the discovery request, and on
its completion (at time `now`) clear the flag, reschedule the next
sniff when periodic sniffing is enabled, and either report the error or
translate the node list via `nodesToHost` and update the pool. -/
def sniff (st : SniffSt) (now : Nat) (nodesToHost : String → String)
    (outcome : Except String String) : SniffSt × Bool × List SniffCb × Bool :=
  if st.isSniffing then (st, false, [], false)
  else
    let st1 := { st with isSniffing := true }
    let sched := if st1.sniffEnabled then now + st1.sniffInterval else st1.nextSniff
    let st2 := { st1 with isSniffing := false, nextSniff := sched }
    match outcome with
    | Except.error e => (st2, true, [SniffCb.err e], false)
    | Except.ok body => (st2, true, [SniffCb.ok (nodesToHost body)], true)

/-! ## Generated endpoint builders (src/api/api)

`snapshot.get_repository.js` and `xpack.migration.get_assistance.js`:
argument normalization, promise support, parameter validation,
querystring filtering with camelCase aliasing, and path building. -/

inductive HVal
  | objHeaders
  | nonObject (t : String)
deriving DecidableEq

inductive IgnoreVal
  | num (n : Nat)
  | arr (l : List Nat)
deriving DecidableEq

structure EPParams where
  repository : Option String := none
  index : Option String := none
  body : Option String := none
  qs : List (String × String) := []
  method : Option String := none
  headers : Option HVal := none
  ignore : Option IgnoreVal := none
  requestTimeout : Option Nat := none
deriving DecidableEq

structure EPRequest where
  method : String
  path : String
  querystring : List (String × String)
  body : Option String
  headers : Option HVal
  ignore : Option (List Nat)
  requestTimeout : Option Nat
deriving DecidableEq

inductive EPErr
  | configurationError (msg : String)
deriving DecidableEq

/-- Characters `encodeURIComponent` leaves unescaped. -/
def uriUnreserved (c : Char) : Bool :=
  (('a' ≤ c && c ≤ 'z') || ('A' ≤ c && c ≤ 'Z') || ('0' ≤ c && c ≤ '9') ||
   c = '-' || c = '_' || c = '.' || c = '!' || c = '~' || c = '*' ||
   c = Char.ofNat 39 || c = '(' || c = ')')

def hexDigit (n : Nat) : Char :=
  if n < 10 then Char.ofNat (48 + n) else Char.ofNat (55 + n)

def percentByte (b : UInt8) : List Char :=
  ['%', hexDigit (b.toNat / 16), hexDigit (b.toNat % 16)]

def encodeURIComponent (s : String) : String :=
  String.mk (s.toList.foldr (fun c acc =>
    if uriUnreserved c then c :: acc
    else (String.singleton c).toUTF8.toList.foldr (fun b a => percentByte b ++ a) acc) [])

/-- The querystring-building loop shared by the endpoint builders:
accepted snake_case keys are copied, camelCase aliases are translated
to their snake_case form, everything else is dropped. -/
def buildQuerystring (accepted camel : List String)
    (keys : List (String × String)) : List (String × String) :=
  keys.foldl (fun acc kv =>
    if accepted.contains kv.1 then acc ++ [kv]
    else match camel.findIdx? (fun k => k = kv.1) with
      | some i => acc ++ [((accepted.get? i).getD kv.1, kv.2)]
      | none => acc) []

/-- `'/' + parts.filter(Boolean).map(encodeURIComponent).join('/')`:
absent and empty parts are falsy and dropped. -/
def buildPath (parts : List (Option String)) : String :=
  "/" ++ String.intercalate "/"
    (((parts.filterMap id).filter (fun s => s ≠ "")).map encodeURIComponent)

/-- `var ignore = params.ignore || null; if (typeof ignore === 'number')
ignore = [ignore]` -/
def normalizeIgnore : Option IgnoreVal → Option (List Nat)
  | some (IgnoreVal.num n) => some [n]
  | some (IgnoreVal.arr l) => some l
  | none => none

/-- `params.requestTimeout || null` (`0` is falsy). -/
def jsOrNull : Option Nat → Option Nat
  | some n => if n = 0 then none else some n
  | none => none

/-- The callback-path body of `snapshotGetRepository`: body rejection,
querystring build, method default, headers validation, ignore
normalization and request construction. -/
def snapshotGetRepositoryCore (params : EPParams) : Except EPErr EPRequest :=
  if params.body.isSome then
    Except.error (EPErr.configurationError "This API does not require a body")
  else
    let querystring := buildQuerystring
      ["master_timeout", "local", "pretty", "human", "error_trace", "source",
       "filter_path"]
      ["masterTimeout", "local", "pretty", "human", "errorTrace", "source",
       "filterPath"] params.qs
    let method := params.method.getD "GET"
    match params.headers with
    | some (HVal.nonObject t) =>
      Except.error (EPErr.configurationError
        ("Headers should be an object, instead got: " ++ t))
    | _ =>
      Except.ok {
        method := method,
        path := buildPath [some "_snapshot", params.repository],
        querystring := querystring,
        body := none,
        headers := params.headers,
        ignore := normalizeIgnore params.ignore,
        requestTimeout := jsOrNull params.requestTimeout }

/-- The callback-path body of `xpackMigrationGetAssistance` (no body
check in this endpoint). -/
def xpackMigrationGetAssistanceCore (params : EPParams) :
    Except EPErr EPRequest :=
  let querystring := buildQuerystring
    ["allow_no_indices", "expand_wildcards", "ignore_unavailable"]
    ["allowNoIndices", "expandWildcards", "ignoreUnavailable"] params.qs
  let method := params.method.getD "GET"
  match params.headers with
  | some (HVal.nonObject t) =>
    Except.error (EPErr.configurationError
      ("Headers should be an object, instead got: " ++ t))
  | _ =>
    Except.ok {
      method := method,
      path := buildPath
        [some "_xpack", some "migration", some "assistance", params.index],
      querystring := querystring,
      body := none,
      headers := params.headers,
      ignore := normalizeIgnore params.ignore,
      requestTimeout := jsOrNull params.requestTimeout }

/-- The first positional argument of an endpoint function: a params
object, a function (a callback in params position), or null/undefined. -/
inductive JsArg
  | obj (p : EPParams)
  | fnArg
  | nullArg
deriving DecidableEq

deriving instance DecidableEq for Except

inductive EPOutcome
  | viaCallback (r : Except EPErr EPRequest)
  | viaPromise (r : Except EPErr EPRequest)
deriving DecidableEq

/-- The shared wrapper of a generated endpoint function:
`if (typeof params === 'function' || params == null) { callback = params;
params = {} }`, then the promise branch when no callback remains.
The promise executor re-invokes the endpoint passing only the resolver
function — that re-invocation takes the params-is-function branch above,
so it runs the callback path on the empty params object; the promise
resolves or rejects with whatever that inner call delivers. -/
def epRun (core : EPParams → Except EPErr EPRequest)
    (paramsArg : JsArg) (callbackProvided : Bool) : EPOutcome :=
  let norm : EPParams × Bool :=
    match paramsArg with
    | JsArg.fnArg => ({}, true)
    | JsArg.nullArg => ({}, false)
    | JsArg.obj q => (q, callbackProvided)
  if norm.2 = false then
    EPOutcome.viaPromise (core {})
  else
    EPOutcome.viaCallback (core norm.1)

def snapshotGetRepository (paramsArg : JsArg) (callbackProvided : Bool) :
    EPOutcome :=
  epRun snapshotGetRepositoryCore paramsArg callbackProvided

def xpackMigrationGetAssistance (paramsArg : JsArg) (callbackProvided : Bool) :
    EPOutcome :=
  epRun xpackMigrationGetAssistanceCore paramsArg callbackProvided

/-! ## Auxiliary notions used by the statements and proofs -/

/-- A concrete environment with identity serializer operations and a
living connection, used by closed evaluations. -/
def env0 : Env :=
  { serialize := Except.ok, ndserialize := Except.ok,
    deserialize := Except.ok, qserialize := id,
    connAvailable := true, sniffDue := false }

/-- Number of `connection.request` attempts recorded in a trace. -/
def countConnReq (t : List Eff) : Nat :=
  t.countP (fun e => match e with | Eff.connReq _ => true | _ => false)

/-- A stream-event list containing a terminal event (`error` or `end`). -/
def hasTerminal (evs : List StreamEvent) : Bool :=
  evs.any (fun e => match e with
    | StreamEvent.errEv _ => true
    | StreamEvent.endEv => true
    | _ => false)

/-- How one execution fragment may move the callback-guard state: the
`delivered` flag never goes back down, the recorded caller deliveries
are preserved, and at most one new delivery is appended, exactly when
the flag rises. -/
def CbStep (g g' : GSt) : Prop :=
  (g.delivered = true → g'.delivered = true ∧ g'.calls = g.calls) ∧
  (g.delivered = false →
    (g'.delivered = false ∧ g'.calls = g.calls) ∨
    (g'.delivered = true ∧ ∃ c, g'.calls = g.calls ++ [c]))

end ESTransport

namespace ESTransport

/-! ## Theorems -/

theorem splitAtComma_of_wf (t : List Char) :
    ∀ inQ : Bool, quotesWf inQ t = true → splitAtComma t = !inQ := by
  induction t with
  | nil =>
    intro inQ h
    simp [quotesWf] at h
    simp [splitAtComma, firstQuoteTail, h]
  | cons c t ih =>
    intro inQ h
    by_cases hc : c = '"'
    · subst hc
      simp [quotesWf] at h
      cases inQ with
      | true =>
        simp at h
        cases t with
        | nil => simp [splitAtComma, firstQuoteTail]
        | cons d t' =>
          simp [splitAtComma, firstQuoteTail]
          simpa using h.1
      | false =>
        simp at h
        cases t with
        | nil => exact absurd h.1 (by simp)
        | cons d t' =>
          simp [splitAtComma, firstQuoteTail]
          simpa using h.1
    · have h' : quotesWf inQ t = true := by
        simpa [quotesWf, hc] using h
      have := ih inQ h'
      simp [splitAtComma, firstQuoteTail, hc] at this ⊢
      exact this

theorem warningSplit_eq_specSplit_of_wf (s : List Char) :
    ∀ inQ : Bool, quotesWf inQ s = true →
      warningSplit s = specSplitAux inQ s := by
  induction s with
  | nil => intro inQ _; rfl
  | cons c t ih =>
    intro inQ h
    by_cases hc : c = '"'
    · subst hc
      have h' : quotesWf (!inQ) t = true := by
        cases inQ <;> simp [quotesWf] at h <;> cases t <;>
          simp_all [quotesWf]
      have ht := ih (!inQ) h'
      simp [warningSplit, specSplitAux, ht]
    · have h' : quotesWf inQ t = true := by
        simpa [quotesWf, hc] using h
      have ht := ih inQ h'
      by_cases hcomma : c = ','
      · subst hcomma
        have hs := splitAtComma_of_wf t inQ h'
        cases inQ with
        | true => simp [warningSplit, specSplitAux, hs, ht]
        | false => simp [warningSplit, specSplitAux, hs, ht]
      · simp [warningSplit, specSplitAux, hcomma, hc, ht]

/-- C9: every sniff run that starts (no sniff already in progress), on
completion of its discovery request — whether that request failed or
succeeded — leaves the in-progress flag cleared and, when periodic
sniffing is enabled, reschedules the next sniff time to
`now + sniffInterval`; a discovery request is always issued. -/
theorem claim_C9_sniff_always_reschedules
    (st : SniffSt) (now : Nat) (n2h : String → String)
    (outcome : Except String String) (h : st.isSniffing = false) :
    (sniff st now n2h outcome).1.isSniffing = false ∧
    (st.sniffEnabled = true →
      (sniff st now n2h outcome).1.nextSniff = now + st.sniffInterval) ∧
    (sniff st now n2h outcome).2.1 = true := by
  cases outcome with
  | error e =>
    exact ⟨by simp [sniff, h], fun he => by simp [sniff, h, he],
           by simp [sniff, h]⟩
  | ok b =>
    exact ⟨by simp [sniff, h], fun he => by simp [sniff, h, he],
           by simp [sniff, h]⟩

theorem claim_C9_witness :
    (sniff { sniffEnabled := true, sniffInterval := 5, nextSniff := 0,
             isSniffing := false } 100 id (Except.error "fail")).1.isSniffing
      = false ∧
    (sniff { sniffEnabled := true, sniffInterval := 5, nextSniff := 0,
             isSniffing := false } 100 id (Except.error "fail")).1.nextSniff
      = 105 := by
  have h := claim_C9_sniff_always_reschedules
    { sniffEnabled := true, sniffInterval := 5, nextSniff := 0,
      isSniffing := false } 100 id (Except.error "fail") rfl
  exact ⟨h.1, h.2.1 rfl⟩

/-- C10: invoking `sniff` while another run is in progress returns
immediately: no discovery request is issued, the transport state is
unchanged, the callback is never invoked, the pool is not updated. -/
theorem claim_C10_sniff_noop_when_in_progress
    (st : SniffSt) (now : Nat) (n2h : String → String)
    (outcome : Except String String) (h : st.isSniffing = true) :
    sniff st now n2h outcome = (st, false, [], false) := by
  simp [sniff, h]

theorem claim_C10_witness :
    sniff { sniffEnabled := true, sniffInterval := 5, nextSniff := 7,
            isSniffing := true } 100 id (Except.ok "nodes")
      = ({ sniffEnabled := true, sniffInterval := 5, nextSniff := 7,
           isSniffing := true }, false, [], false) :=
  claim_C10_sniff_noop_when_in_progress
    { sniffEnabled := true, sniffInterval := 5, nextSniff := 7,
      isSniffing := true } 100 id (Except.ok "nodes") rfl

/-- C8: when the pool yields no connection, `request` delivers a
`NoLivingConnectionsError` right after the selection step: the state
equation shows that no serialization is attempted, the script of
connection outcomes is left untouched (no network attempt), and no
retry occurs. -/
theorem claim_C8_no_living_connections
    (cfg : Cfg) (env : Env) (fuel : Nat) (p : Params) (g : GSt)
    (hconn : env.connAvailable = false) (hsniff : cfg.sniffEnabled = false)
    (hdel : g.delivered = false) :
    requestGo cfg env (fuel + 1) p g =
      { g with delivered := true,
               calls := g.calls ++ [(some Err.noLivingConnections, {})],
               trace := g.trace ++ [Eff.resurrect,
                 Eff.deliver (some Err.noLivingConnections)] } := by
  simp [requestGo, requestStep, hconn, hsniff, emitEff, deliverCb, hdel]

theorem claim_C8_witness :
    requestGo {} { env0 with connAvailable := false } 1 {}
        { script := [AttemptOutcome.resp 200 {} [StreamEvent.endEv]] } =
      { delivered := true,
        calls := [(some Err.noLivingConnections, {})],
        script := [AttemptOutcome.resp 200 {} [StreamEvent.endEv]],
        trace := [Eff.resurrect,
                  Eff.deliver (some Err.noLivingConnections)] } := by
  have h := claim_C8_no_living_connections {} { env0 with connAvailable := false }
    0 {} { script := [AttemptOutcome.resp 200 {} [StreamEvent.endEv]] }
    rfl rfl rfl
  simpa using h

/-- C1 (code bug): with `params.maxRetries = 1` and a connection that
fails at the network level on every attempt, ten attempts are issued
within ten scripted failures and no terminal error is ever delivered —
instead of the claimed 1+1 attempts followed by a terminal error.  The
cause is pinned by the last conjunct: when the remaining-attempts
counter stored in the params reaches 0, the JavaScript `||` chain
treats it as falsy and resolves the budget back to `maxRetries = 1`,
so a further retry is attempted. -/
theorem claim_C1_retry_budget_eval :
    countConnReq (request { maxRetries := 3 } env0 10 { maxRetries := some 1 }
      (List.replicate 10 (AttemptOutcome.netErr (NetErr.failure "boom")))).trace
        = 10 ∧
    (request { maxRetries := 3 } env0 10 { maxRetries := some 1 }
      (List.replicate 10 (AttemptOutcome.netErr (NetErr.failure "boom")))).calls
        = [] ∧
    resolveAttempts (some 0) (some 1) 3 = 1 := by
  decide

/-- C5 (code bug): the promise form of a generated endpoint function is
not an equivalent wrapping of the callback form: the promise executor
re-invokes the endpoint with only the resolver function, so the inner
call runs on the empty params object and the caller's params are
dropped — `snapshot.get_repository` with a repository builds
`/_snapshot/foo` in callback form but `/_snapshot` in promise form. -/
theorem claim_C5_promise_drops_params :
    snapshotGetRepository (JsArg.obj { repository := some "foo" }) true =
      EPOutcome.viaCallback
        (snapshotGetRepositoryCore { repository := some "foo" }) ∧
    snapshotGetRepository (JsArg.obj { repository := some "foo" }) false =
      EPOutcome.viaPromise (snapshotGetRepositoryCore {}) ∧
    snapshotGetRepositoryCore { repository := some "foo" } ≠
      snapshotGetRepositoryCore {} ∧
    xpackMigrationGetAssistance (JsArg.obj { index := some "idx" }) false =
      EPOutcome.viaPromise (xpackMigrationGetAssistanceCore {}) ∧
    xpackMigrationGetAssistanceCore { index := some "idx" } ≠
      xpackMigrationGetAssistanceCore {} := by
  refine ⟨rfl, rfl, ?_, rfl, ?_⟩ <;> decide

/-- C4 amended: when params carries both a single-document body and a
bulk body, no rejection occurs; the document body takes precedence —
body preparation is entirely independent of the bulk body (which
survives as an ignored field) and the prepared request carries the
JSON content type of the document-body branch. -/
theorem claim_C4_amended (env : Env) (p : Params) (b : Body)
    (hb : p.body = some b) :
    ((prepareBody env p).map
        fun q => (q.body, q.reqContentType, q.reqContentLength)) =
      ((prepareBody env { p with bulkBody := none }).map
        fun q => (q.body, q.reqContentType, q.reqContentLength)) ∧
    ∀ q, prepareBody env p = Except.ok q →
      q.reqContentType = some "application/json" := by
  cases hE : (if shouldSerialize b then
      match b with
      | Body.obj o => (env.serialize o).map Body.str
      | _ => Except.ok b
    else Except.ok b) with
  | error m =>
    constructor
    · simp only [prepareBody, hb]
      rw [hE]
    · intro q hq
      simp only [prepareBody, hb] at hq
      rw [hE] at hq
      exact absurd hq (by simp)
  | ok b' =>
    constructor
    · simp only [prepareBody, hb]
      rw [hE]
      cases hS : isStream b' <;> simp [hS, Except.map]
    · intro q hq
      simp only [prepareBody, hb] at hq
      rw [hE] at hq
      cases hS : isStream b' <;> simp [hS] at hq <;> simp [← hq]

theorem claim_C4_witness :
    ((prepareBody env0
        { body := some (Body.str "x"), bulkBody := some (Body.str "y") }).map
      fun q => (q.body, q.reqContentType, q.reqContentLength)) =
      ((prepareBody env0
        { body := some (Body.str "x"), bulkBody := none }).map
      fun q => (q.body, q.reqContentType, q.reqContentLength)) ∧
    ({ body := some (Body.str "x"), bulkBody := some (Body.str "y"),
       reqContentType := some "application/json",
       reqContentLength := some 1 } : Params).reqContentType =
      some "application/json" := by
  have h := claim_C4_amended env0
    { body := some (Body.str "x"), bulkBody := some (Body.str "y") }
    (Body.str "x") rfl
  exact ⟨h.1, h.2 _ (by decide)⟩

/-- C7 counterexample: the claim's universal characterization — split
on exactly the commas not enclosed in double quotes — fails: in
`a," b"` the comma is not enclosed in quotes, yet the regex does not
split there (the first quote after it is followed by a non-word
character), so the code yields one warning where the spec-side split
yields two. -/
theorem claim_C7_counterexample :
    warningSplitStr "a,\" b\"" = ["a,\" b\""] ∧
    specSplit "a,\" b\"" = ["a", "\" b\""] ∧
    warningSplitStr "a,\" b\"" ≠ specSplit "a,\" b\"" := by
  refine ⟨by decide, by decide, by decide⟩

/-- C7 amended: the Warning header value is split on the commas
selected by the regex's quote heuristic; this coincides with splitting
on exactly the commas not enclosed in double quotes for every value
with well-formed quoting (each opening quote immediately followed by a
word character, each closing quote at the end or followed by a
non-word character, no unclosed quote), and on the spec's example
`299 - "msg, with, commas"` it yields exactly one warning string. -/
theorem claim_C7_amended :
    (∀ s : String, quotesWf false s.toList = true →
      warningSplitStr s = specSplit s) ∧
    warningSplitStr "299 - \"msg, with, commas\"" =
      ["299 - \"msg, with, commas\""] := by
  constructor
  · intro s h
    unfold warningSplitStr specSplit
    rw [warningSplit_eq_specSplit_of_wf s.toList false h]
  · decide

theorem claim_C7_witness :
    quotesWf false ("299 - \"msg, with, commas\"").toList = true ∧
    warningSplitStr "299 - \"msg, with, commas\"" =
      specSplit "299 - \"msg, with, commas\"" :=
  ⟨by decide, claim_C7_amended.1 "299 - \"msg, with, commas\"" (by decide)⟩

theorem processEventsF_data_chunks (env : Env) (recur : Params → GSt → GSt)
    (p : Params) (a st : Nat) (h : RHeaders) (chunks : List String)
    (rest : List StreamEvent) (payload : String) (r : ResultRec) (g : GSt) :
    processEventsF env recur p a st h
        (chunks.map StreamEvent.data ++ rest) payload r g =
      processEventsF env recur p a st h rest
        (chunks.foldl (fun acc c => acc ++ c) payload) r g := by
  induction chunks generalizing payload with
  | nil => simp
  | cons c cs ih => simpa [processEventsF] using ih (payload ++ c)

/-- C6: for a non-stream HEAD request, body deserialization is never
attempted whatever the content type and payload chunks; a 200 response
delivers `body = true` and a 404 response delivers `body = false`, both
as successes (the error argument of the delivery is `none`, so the 404
is excluded from the generic ≥ 400 error path). -/
theorem claim_C6_head_requests (cfg : Cfg) (env : Env) (fuel : Nat)
    (p : Params) (h : RHeaders) (chunks : List String) (st : Nat)
    (hm : p.method = "HEAD") (hstream : p.asStream = false)
    (hb : p.body = none) (hbb : p.bulkBody = none)
    (hconn : env.connAvailable = true) (hsniff : cfg.sniffEnabled = false)
    (hst : st = 200 ∨ st = 404) :
    (request cfg env (fuel + 1) p
        [AttemptOutcome.resp st h
          (chunks.map StreamEvent.data ++ [StreamEvent.endEv])]).trace =
      [Eff.resurrect, Eff.emitReq, Eff.connReq none, Eff.markAlive,
       Eff.emitResp, Eff.deliver none] ∧
    Eff.deserTry ∉ (request cfg env (fuel + 1) p
        [AttemptOutcome.resp st h
          (chunks.map StreamEvent.data ++ [StreamEvent.endEv])]).trace ∧
    (request cfg env (fuel + 1) p
        [AttemptOutcome.resp st h
          (chunks.map StreamEvent.data ++ [StreamEvent.endEv])]).calls =
      [(none,
        { body := if st = 200 then RBody.bTrue else RBody.bFalse,
          statusCode := some st, headers := some h,
          warnings := h.warning.map warningSplitStr })] := by
  have hrun : (request cfg env (fuel + 1) p
      [AttemptOutcome.resp st h
        (chunks.map StreamEvent.data ++ [StreamEvent.endEv])]) =
      { delivered := true,
        calls := [(none,
          { body := if st = 200 then RBody.bTrue else RBody.bFalse,
            statusCode := some st, headers := some h,
            warnings := h.warning.map warningSplitStr })],
        script := [],
        trace := [Eff.resurrect, Eff.emitReq, Eff.connReq none, Eff.markAlive,
                  Eff.emitResp, Eff.deliver none] } := by
    rcases hst with rfl | rfl <;>
      cases hcomp : cfg.suggestCompression <;> cases hw : h.warning <;>
        simp [request, requestGo, requestStep, prepareBody, hconn, hsniff,
          hb, hbb, hstream, hm, hcomp, hw, issueRequest, respBranch,
          processEventsF_data_chunks, processEventsF, endLogicF, endTail,
          finishResp, ignoredStatusCode, retryStatusCode, emitEff, deliverCb]
  rw [hrun]
  refine ⟨rfl, by simp, rfl⟩

theorem claim_C6_witness :
    (request {} env0 1 { method := "HEAD" }
        [AttemptOutcome.resp 404 { contentType := some "application/json" }
          (["x"].map StreamEvent.data ++ [StreamEvent.endEv])]).calls =
      [(none, { body := RBody.bFalse, statusCode := some 404,
                headers := some { contentType := some "application/json" },
                warnings := none })] ∧
    Eff.deserTry ∉ (request {} env0 1 { method := "HEAD" }
        [AttemptOutcome.resp 404 { contentType := some "application/json" }
          (["x"].map StreamEvent.data ++ [StreamEvent.endEv])]).trace := by
  have h := claim_C6_head_requests {} env0 0 { method := "HEAD" }
    { contentType := some "application/json" } ["x"] 404
    rfl rfl rfl rfl rfl rfl (Or.inr rfl)
  exact ⟨by simpa using h.2.2, h.2.1⟩

theorem cbStep_refl (g : GSt) : CbStep g g :=
  ⟨fun h => ⟨h, rfl⟩, fun h => Or.inl ⟨h, rfl⟩⟩

theorem cbStep_trans {g1 g2 g3 : GSt}
    (h12 : CbStep g1 g2) (h23 : CbStep g2 g3) : CbStep g1 g3 := by
  obtain ⟨a12, b12⟩ := h12
  obtain ⟨a23, b23⟩ := h23
  constructor
  · intro h1
    obtain ⟨hd2, hc2⟩ := a12 h1
    obtain ⟨hd3, hc3⟩ := a23 hd2
    exact ⟨hd3, hc3.trans hc2⟩
  · intro h1
    rcases b12 h1 with ⟨hd2, hc2⟩ | ⟨hd2, c, hc2⟩
    · rcases b23 hd2 with ⟨hd3, hc3⟩ | ⟨hd3, c, hc3⟩
      · exact Or.inl ⟨hd3, hc3.trans hc2⟩
      · exact Or.inr ⟨hd3, c, by rw [hc3, hc2]⟩
    · obtain ⟨hd3, hc3⟩ := a23 hd2
      exact Or.inr ⟨hd3, c, by rw [hc3, hc2]⟩

theorem cbStep_of_frame {g g' : GSt} (hd : g'.delivered = g.delivered)
    (hc : g'.calls = g.calls) : CbStep g g' :=
  ⟨fun h => ⟨hd.trans h, hc⟩, fun h => Or.inl ⟨hd.trans h, hc⟩⟩

theorem cbStep_emit (g : GSt) (e : Eff) : CbStep g (emitEff g e) :=
  cbStep_of_frame rfl rfl

theorem deliverCb_delivered (g : GSt) (e : Option Err) (r : ResultRec) :
    (deliverCb g e r).delivered = true := by
  unfold deliverCb
  split
  · assumption
  · rfl

theorem deliverCb_not_delivered (g : GSt) (e : Option Err) (r : ResultRec)
    (h : g.delivered = false) :
    deliverCb g e r = { g with delivered := true,
                               calls := g.calls ++ [(e, r)],
                               trace := g.trace ++ [Eff.deliver e] } := by
  unfold deliverCb
  rw [if_neg (by simp [h])]

theorem cbStep_deliver (g : GSt) (e : Option Err) (r : ResultRec) :
    CbStep g (deliverCb g e r) := by
  constructor
  · intro h1
    simp [deliverCb, h1]
  · intro h1
    refine Or.inr ⟨deliverCb_delivered g e r, (e, r), ?_⟩
    simp [deliverCb, h1]

theorem emitEff_delivered (g : GSt) (e : Eff) :
    (emitEff g e).delivered = g.delivered := rfl

theorem emitEff_calls (g : GSt) (e : Eff) :
    (emitEff g e).calls = g.calls := rfl

theorem emitEff_script (g : GSt) (e : Eff) :
    (emitEff g e).script = g.script := rfl

theorem finishResp_cbStep (isHead ignoreSC : Bool) (st : Nat)
    (r : ResultRec) (g : GSt) : CbStep g (finishResp isHead ignoreSC st r g).2 := by
  unfold finishResp
  by_cases hc : (!ignoreSC && decide (400 ≤ st)) = true
  · simp only [hc, if_true]
    exact cbStep_deliver g _ r
  · simp only [hc, if_false, Bool.false_eq_true]
    exact cbStep_deliver g none _

theorem endTail_cbStep (recur : Params → GSt → GSt)
    (hrec : ∀ q g, CbStep g (recur q g))
    (p : Params) (a st : Nat) (r : ResultRec) (g : GSt) :
    CbStep g (endTail recur p a st r g).2 := by
  unfold endTail
  by_cases hc : (!ignoredStatusCode p st && retryStatusCode st) = true
  · by_cases ha : 0 < a
    · simp only [hc, ha, if_true]
      exact cbStep_trans (cbStep_emit g Eff.markDead) (hrec _ _)
    · simp only [hc, ha, if_true, if_false]
      exact cbStep_trans (cbStep_emit g Eff.markDead)
        (cbStep_trans (cbStep_emit _ Eff.emitResp) (finishResp_cbStep _ _ _ _ _))
  · simp only [hc, if_false, Bool.false_eq_true]
    exact cbStep_trans (cbStep_emit g Eff.markAlive)
      (cbStep_trans (cbStep_emit _ Eff.emitResp) (finishResp_cbStep _ _ _ _ _))

theorem endLogicF_cbStep (env : Env) (recur : Params → GSt → GSt)
    (hrec : ∀ q g, CbStep g (recur q g))
    (p : Params) (a st : Nat) (hdrs : RHeaders) (payload : String)
    (r : ResultRec) (g : GSt) :
    CbStep g (endLogicF env recur p a st hdrs payload r g).2 := by
  unfold endLogicF
  by_cases hc : (ctIsJson hdrs.contentType && !(p.method == "HEAD") &&
      !(payload == "")) = true
  · simp only [hc, if_true]
    cases hd : env.deserialize payload with
    | error m =>
      simp only [hd]
      exact cbStep_trans (cbStep_emit g Eff.deserTry)
        (cbStep_trans (cbStep_emit _ Eff.emitErr) (cbStep_deliver _ _ _))
    | ok v =>
      simp only [hd]
      exact cbStep_trans (cbStep_emit g Eff.deserTry)
        (endTail_cbStep recur hrec p a st _ _)
  · simp only [hc, if_false, Bool.false_eq_true]
    exact endTail_cbStep recur hrec p a st _ g

theorem processEventsF_cbStep (env : Env) (recur : Params → GSt → GSt)
    (hrec : ∀ q g, CbStep g (recur q g))
    (p : Params) (a st : Nat) (h : RHeaders) (evs : List StreamEvent) :
    ∀ (payload : String) (r : ResultRec) (g : GSt),
      CbStep g (processEventsF env recur p a st h evs payload r g).2 := by
  induction evs with
  | nil => intro payload r g; exact cbStep_refl g
  | cons ev rest ih =>
    intro payload r g
    cases ev with
    | data c => exact ih (payload ++ c) r g
    | errEv m =>
      exact cbStep_trans (cbStep_deliver g _ r) (ih payload r _)
    | endEv =>
      exact cbStep_trans (endLogicF_cbStep env recur hrec p a st h payload r g)
        (ih payload _ _)

theorem netErrBranch_cbStep (cfg : Cfg) (recur : Params → GSt → GSt)
    (hrec : ∀ q g, CbStep g (recur q g))
    (p : Params) (a : Nat) (e : NetErr) (g : GSt) :
    CbStep g (netErrBranch cfg recur p a e g) := by
  unfold netErrBranch
  have hmid : CbStep g (if cfg.sniffOnConnectionFault then
      emitEff (emitEff g Eff.markDead) Eff.sniffTrig
      else emitEff g Eff.markDead) := by
    by_cases hs : cfg.sniffOnConnectionFault = true
    · simp only [hs, if_true]
      exact cbStep_trans (cbStep_emit _ _) (cbStep_emit _ _)
    · simp only [hs, if_false, Bool.false_eq_true]
      exact cbStep_emit _ _
  by_cases ha : 0 < a
  · simp only [ha, if_true]
    exact cbStep_trans hmid (hrec _ _)
  · simp only [ha, if_false]
    exact cbStep_trans hmid (cbStep_trans (cbStep_emit _ _) (cbStep_deliver _ _ _))

theorem respBranch_cbStep (env : Env) (recur : Params → GSt → GSt)
    (hrec : ∀ q g, CbStep g (recur q g))
    (p : Params) (a st : Nat) (hdrs : RHeaders) (events : List StreamEvent)
    (g : GSt) : CbStep g (respBranch env recur p a st hdrs events g) := by
  unfold respBranch
  by_cases hstream : p.asStream = true
  · simp only [hstream, if_true]
    exact cbStep_trans (cbStep_emit _ _) (cbStep_deliver _ _ _)
  · simp only [hstream, if_false, Bool.false_eq_true]
    exact processEventsF_cbStep env recur hrec _ _ _ _ _ _ _ _

theorem issueRequest_cbStep (cfg : Cfg) (env : Env)
    (recur : Params → GSt → GSt) (hrec : ∀ q g, CbStep g (recur q g))
    (p : Params) (a : Nat) (g : GSt) :
    CbStep g (issueRequest cfg env recur p a g) := by
  unfold issueRequest
  cases hscr : g.script with
  | nil =>
    simp only [emitEff_script, hscr]
    exact cbStep_emit _ _
  | cons o rest =>
    simp only [emitEff_script, hscr]
    cases o with
    | netErr e =>
      dsimp only
      refine cbStep_trans ?_ (netErrBranch_cbStep cfg recur hrec p a e _)
      exact cbStep_of_frame rfl rfl
    | resp status hdrs events =>
      dsimp only
      refine cbStep_trans ?_
        (respBranch_cbStep env recur hrec p a status hdrs events _)
      exact cbStep_of_frame rfl rfl

theorem requestStep_cbStep (cfg : Cfg) (env : Env)
    (recur : Params → GSt → GSt) (hrec : ∀ q g, CbStep g (recur q g))
    (p : Params) (g : GSt) : CbStep g (requestStep cfg env recur p g) := by
  unfold requestStep
  have hmid : CbStep g (emitEff
      (if cfg.sniffEnabled && env.sniffDue then emitEff g Eff.sniffTrig else g)
      Eff.resurrect) := by
    by_cases hs : (cfg.sniffEnabled && env.sniffDue) = true
    · simp only [hs, if_true]
      exact cbStep_trans (cbStep_emit _ _) (cbStep_emit _ _)
    · simp only [hs, if_false, Bool.false_eq_true]
      exact cbStep_emit _ _
  by_cases hconn : env.connAvailable = false
  · simp only [hconn, if_true]
    exact cbStep_trans hmid (cbStep_deliver _ _ _)
  · simp only [hconn, if_false]
    cases hpre : prepareBody env p with
    | error m =>
      simp only [hpre]
      exact cbStep_trans hmid (cbStep_deliver _ _ _)
    | ok p1 =>
      simp only [hpre]
      exact cbStep_trans hmid (issueRequest_cbStep cfg env recur hrec _ _ _)

theorem requestGo_cbStep (cfg : Cfg) (env : Env) :
    ∀ (fuel : Nat) (p : Params) (g : GSt),
      CbStep g (requestGo cfg env fuel p g) := by
  intro fuel
  induction fuel with
  | zero => intro p g; exact cbStep_refl g
  | succ n ih =>
    intro p g
    exact requestStep_cbStep cfg env _ (fun q g' => ih q g') p g

theorem finishResp_delivered (isHead ignoreSC : Bool) (st : Nat)
    (r : ResultRec) (g : GSt) :
    (finishResp isHead ignoreSC st r g).2.delivered = true := by
  unfold finishResp
  by_cases hc : (!ignoreSC && decide (400 ≤ st)) = true
  · simp only [hc, if_true]
    exact deliverCb_delivered _ _ _
  · simp only [hc, if_false, Bool.false_eq_true]
    exact deliverCb_delivered _ _ _

theorem endTail_delivered (recur : Params → GSt → GSt)
    (p : Params) (a st : Nat) (r : ResultRec) (g : GSt)
    (hNR : (!ignoredStatusCode p st && retryStatusCode st) = false) :
    (endTail recur p a st r g).2.delivered = true := by
  unfold endTail
  simp only [hNR, Bool.false_eq_true, if_false]
  exact finishResp_delivered _ _ _ _ _

theorem endLogicF_delivered (env : Env) (recur : Params → GSt → GSt)
    (p : Params) (a st : Nat) (hdrs : RHeaders) (payload : String)
    (r : ResultRec) (g : GSt)
    (hNR : (!ignoredStatusCode p st && retryStatusCode st) = false) :
    (endLogicF env recur p a st hdrs payload r g).2.delivered = true := by
  unfold endLogicF
  by_cases hc : (ctIsJson hdrs.contentType && !(p.method == "HEAD") &&
      !(payload == "")) = true
  · simp only [hc, if_true]
    cases hd : env.deserialize payload with
    | error m =>
      simp only [hd]
      exact deliverCb_delivered _ _ _
    | ok v =>
      simp only [hd]
      exact endTail_delivered recur p a st _ _ hNR
  · simp only [hc, if_false, Bool.false_eq_true]
    exact endTail_delivered recur p a st _ _ hNR

theorem processEventsF_terminal_delivered (env : Env)
    (recur : Params → GSt → GSt) (hrec : ∀ q g, CbStep g (recur q g))
    (p : Params) (a st : Nat) (h : RHeaders)
    (hNR : (!ignoredStatusCode p st && retryStatusCode st) = false) :
    ∀ (evs : List StreamEvent) (payload : String) (r : ResultRec) (g : GSt),
      hasTerminal evs = true →
      (processEventsF env recur p a st h evs payload r g).2.delivered = true := by
  intro evs
  induction evs with
  | nil =>
    intro payload r g hterm
    simp [hasTerminal] at hterm
  | cons ev rest ih =>
    intro payload r g hterm
    cases ev with
    | data c =>
      apply ih
      simpa [hasTerminal] using hterm
    | errEv m =>
      simp only [processEventsF]
      exact ((processEventsF_cbStep env recur hrec p a st h rest payload r _).1
        (deliverCb_delivered _ _ _)).1
    | endEv =>
      simp only [processEventsF]
      exact ((processEventsF_cbStep env recur hrec p a st h rest payload _ _).1
        (endLogicF_delivered env recur p a st h payload r g hNR)).1

theorem resolveAttempts_pos (krem : Option Nat) (m t : Nat) :
    0 < resolveAttempts krem (some (m + 1)) t := by
  cases krem with
  | none => simp [resolveAttempts, jsOrNat]
  | some n =>
    by_cases hn : n = 0
    · simp [resolveAttempts, jsOrNat, hn]
    · simp only [resolveAttempts, jsOrNat, if_neg hn]
      omega

theorem prepareBody_none (env : Env) (p : Params)
    (hb : p.body = none) (hbb : p.bulkBody = none) :
    prepareBody env p = Except.ok p := by
  simp [prepareBody, hb, hbb]

/-- When a connection is available and no body is configured, one
request level reduces to `issueRequest` on transformed params that keep
every classification-relevant field. -/
theorem requestStep_conn_ok (cfg : Cfg) (env : Env)
    (recur : Params → GSt → GSt) (p : Params) (g : GSt)
    (hconn : env.connAvailable = true)
    (hb : p.body = none) (hbb : p.bulkBody = none) :
    ∃ p2 g2, requestStep cfg env recur p g = issueRequest cfg env recur p2
        (resolveAttempts p.krem p.maxRetries cfg.maxRetries) g2 ∧
      p2.method = p.method ∧ p2.ignore = p.ignore ∧
      p2.maxRetries = p.maxRetries ∧ p2.body = none ∧ p2.bulkBody = none ∧
      p2.asStream = p.asStream ∧ p2.krem = p.krem ∧
      g2.script = g.script ∧ g2.delivered = g.delivered ∧
      g2.calls = g.calls := by
  have hpre : prepareBody env p = Except.ok p := prepareBody_none env p hb hbb
  unfold requestStep
  rw [if_neg (by simp [hconn])]
  simp only [hpre]
  by_cases hcomp : cfg.suggestCompression = true <;>
    by_cases hsd : (cfg.sniffEnabled && env.sniffDue) = true <;>
      simp only [hcomp, hsd, if_true, if_false, Bool.false_eq_true] <;>
      exact ⟨_, _, rfl, rfl, rfl, rfl, hb, hbb, rfl, rfl, rfl, rfl, rfl⟩

theorem issueRequest_resp_delivered (cfg : Cfg) (env : Env)
    (recur : Params → GSt → GSt) (hrec : ∀ q g, CbStep g (recur q g))
    (p : Params) (a st : Nat) (hdrs : RHeaders) (evs : List StreamEvent)
    (rest : List AttemptOutcome) (g : GSt)
    (hscr : g.script = AttemptOutcome.resp st hdrs evs :: rest)
    (hstream : p.asStream = false)
    (hterm : hasTerminal evs = true)
    (hNR : (!ignoredStatusCode p st && retryStatusCode st) = false) :
    (issueRequest cfg env recur p a g).delivered = true := by
  unfold issueRequest
  simp only [emitEff_script, hscr]
  unfold respBranch
  rw [if_neg (by simp [hstream])]
  exact processEventsF_terminal_delivered env recur hrec p a st hdrs hNR
    evs "" _ _ hterm

theorem issueRequest_netErr_step (cfg : Cfg) (env : Env)
    (recur : Params → GSt → GSt) (p : Params) (a : Nat) (e : NetErr)
    (rest : List AttemptOutcome) (g : GSt)
    (hscr : g.script = AttemptOutcome.netErr e :: rest) (ha : 0 < a) :
    ∃ g', issueRequest cfg env recur p a g =
        recur { p with krem := some (a - 1) } g' ∧
      g'.script = rest ∧ g'.delivered = g.delivered ∧ g'.calls = g.calls := by
  unfold issueRequest
  simp only [emitEff_script, hscr]
  unfold netErrBranch
  rw [if_pos ha]
  by_cases hsf : cfg.sniffOnConnectionFault = true <;>
    simp only [hsf, if_true, if_false, Bool.false_eq_true] <;>
    exact ⟨_, rfl, rfl, rfl, rfl⟩

/-- A chain of `k` scripted network failures followed by a completed
response on a budget that always resolves positive reaches a terminal
delivery. -/
theorem requestGo_chain_delivered (cfg : Cfg) (env : Env)
    (hconn : env.connAvailable = true) (m : Nat) :
    ∀ (k fuel : Nat) (p : Params) (g : GSt) (e : NetErr) (st : Nat)
      (hdrs : RHeaders) (evs : List StreamEvent),
      p.maxRetries = some (m + 1) → p.body = none → p.bulkBody = none →
      p.asStream = false → hasTerminal evs = true →
      (!ignoredStatusCode p st && retryStatusCode st) = false →
      g.script = List.replicate k (AttemptOutcome.netErr e) ++
        [AttemptOutcome.resp st hdrs evs] →
      k < fuel →
      (requestGo cfg env fuel p g).delivered = true := by
  intro k
  induction k with
  | zero =>
    intro fuel p g e st hdrs evs hmax hb hbb hstream hterm hNR hscr hfuel
    obtain ⟨n, rfl⟩ : ∃ n, fuel = n + 1 := ⟨fuel - 1, by omega⟩
    obtain ⟨p2, g2, heq, hmeth, hign, _, _, _, hstream2, _, hscr2, _, _⟩ :=
      requestStep_conn_ok cfg env (requestGo cfg env n) p g hconn hb hbb
    have hu : requestGo cfg env (n + 1) p g = issueRequest cfg env
        (requestGo cfg env n) p2
        (resolveAttempts p.krem p.maxRetries cfg.maxRetries) g2 := by
      simp only [requestGo]
      exact heq
    rw [hu]
    refine issueRequest_resp_delivered cfg env _
      (fun q g' => requestGo_cbStep cfg env n q g') p2 _ st hdrs evs [] g2
      ?_ ?_ hterm ?_
    · rw [hscr2, hscr]
      rfl
    · rw [hstream2]
      exact hstream
    · have hh : ignoredStatusCode p2 st = ignoredStatusCode p st := by
        unfold ignoredStatusCode inIgnoreList
        rw [hign, hmeth]
      rw [hh]
      exact hNR
  | succ k ih =>
    intro fuel p g e st hdrs evs hmax hb hbb hstream hterm hNR hscr hfuel
    obtain ⟨n, rfl⟩ : ∃ n, fuel = n + 1 := ⟨fuel - 1, by omega⟩
    obtain ⟨p2, g2, heq, hmeth, hign, hmax2, hb2, hbb2, hstream2, _, hscr2, _, _⟩ :=
      requestStep_conn_ok cfg env (requestGo cfg env n) p g hconn hb hbb
    have hu : requestGo cfg env (n + 1) p g = issueRequest cfg env
        (requestGo cfg env n) p2
        (resolveAttempts p.krem p.maxRetries cfg.maxRetries) g2 := by
      simp only [requestGo]
      exact heq
    have ha : 0 < resolveAttempts p.krem p.maxRetries cfg.maxRetries := by
      rw [hmax]
      exact resolveAttempts_pos p.krem m cfg.maxRetries
    obtain ⟨g', hstep, hscr', _, _⟩ := issueRequest_netErr_step cfg env
      (requestGo cfg env n) p2
      (resolveAttempts p.krem p.maxRetries cfg.maxRetries) e
      (List.replicate k (AttemptOutcome.netErr e) ++
        [AttemptOutcome.resp st hdrs evs]) g2
      (by simp [hscr2, hscr, List.replicate_succ]) ha
    rw [hu, hstep]
    have hp3 : ∀ q : Params, q = { p2 with krem := some (resolveAttempts p.krem p.maxRetries cfg.maxRetries - 1) } → (requestGo cfg env n q g').delivered = true := by
      intro q hq
      refine ih n q g' e st hdrs evs ?_ ?_ ?_ ?_ hterm ?_ hscr' (by omega)
      · rw [hq]
        simpa using hmax2.trans hmax
      · rw [hq]
        simpa using hb2
      · rw [hq]
        simpa using hbb2
      · rw [hq]
        simpa using hstream2.trans hstream
      · have hh : ignoredStatusCode q st = ignoredStatusCode p st := by
          unfold ignoredStatusCode inIgnoreList
          rw [hq]
          simp only [hign, hmeth]
        rw [hh]
        exact hNR
    exact hp3 _ rfl

/-- C2: the caller's callback receives at most one terminal invocation
for every configuration, environment, params and script of connection
outcomes and stream-event interleavings (the `once` guard); and exactly
one whenever the exchange completes: any chain of network failures
followed by a completed response whose status does not re-enter the
retry strategy delivers exactly once. -/
theorem claim_C2_exactly_one_callback :
    (∀ (cfg : Cfg) (env : Env) (fuel : Nat) (p : Params)
        (script : List AttemptOutcome),
      (request cfg env fuel p script).calls.length ≤ 1) ∧
    (∀ (cfg : Cfg) (env : Env) (fuel k m st : Nat) (p : Params) (e : NetErr)
        (hdrs : RHeaders) (evs : List StreamEvent),
      env.connAvailable = true → p.maxRetries = some (m + 1) →
      p.body = none → p.bulkBody = none → p.asStream = false →
      hasTerminal evs = true →
      (!ignoredStatusCode p st && retryStatusCode st) = false →
      k < fuel →
      (request cfg env fuel p
        (List.replicate k (AttemptOutcome.netErr e) ++
          [AttemptOutcome.resp st hdrs evs])).calls.length = 1) := by
  constructor
  · intro cfg env fuel p script
    have h := requestGo_cbStep cfg env fuel p { script := script }
    rcases h.2 rfl with ⟨_, hc⟩ | ⟨_, c, hc⟩ <;> simp [request, hc]
  · intro cfg env fuel k m st p e hdrs evs hconn hmax hb hbb hstream hterm
      hNR hfuel
    have hdel := requestGo_chain_delivered cfg env hconn m k fuel p
      { script := List.replicate k (AttemptOutcome.netErr e) ++
          [AttemptOutcome.resp st hdrs evs] }
      e st hdrs evs hmax hb hbb hstream hterm hNR rfl hfuel
    have h := requestGo_cbStep cfg env fuel p
      { script := List.replicate k (AttemptOutcome.netErr e) ++
          [AttemptOutcome.resp st hdrs evs] }
    rcases h.2 rfl with ⟨hd, _⟩ | ⟨_, c, hc⟩
    · rw [hdel] at hd
      simp at hd
    · simp [request, hc]

theorem claim_C2_witness :
    (request {} env0 3 {} [AttemptOutcome.netErr NetErr.timeout]).calls.length
      ≤ 1 ∧
    (request {} env0 3 { maxRetries := some 1 }
      (List.replicate 1 (AttemptOutcome.netErr NetErr.timeout) ++
        [AttemptOutcome.resp 200 {} [StreamEvent.endEv]])).calls.length = 1 :=
  ⟨claim_C2_exactly_one_callback.1 {} env0 3 {} _,
   claim_C2_exactly_one_callback.2 {} env0 3 1 0 200 { maxRetries := some 1 }
     NetErr.timeout {} [StreamEvent.endEv] rfl rfl rfl rfl rfl (by decide)
     (by decide) (by omega)⟩

/-- With sniffing disabled and compression off, one request level on a
body-less params is `issueRequest` after the querystring/timeout
transformation, with only a `resurrect` effect added. -/
theorem requestStep_plain (cfg : Cfg) (env : Env)
    (recur : Params → GSt → GSt) (p : Params) (g : GSt)
    (hconn : env.connAvailable = true) (hsniff : cfg.sniffEnabled = false)
    (hcompr : cfg.suggestCompression = false)
    (hb : p.body = none) (hbb : p.bulkBody = none) :
    requestStep cfg env recur p g = issueRequest cfg env recur
      { p with querystring := env.qserialize p.querystring,
               timeout := jsOrNat p.requestTimeout cfg.requestTimeout }
      (resolveAttempts p.krem p.maxRetries cfg.maxRetries)
      (emitEff g Eff.resurrect) := by
  have hpre := prepareBody_none env p hb hbb
  unfold requestStep
  rw [if_neg (by simp [hconn])]
  simp only [hpre, hsniff, hcompr, Bool.false_and, Bool.false_eq_true,
    if_false]

/-- A completed non-stream exchange whose status triggers the retry
strategy, with attempts remaining and body normalization succeeding
(deserialization, when attempted, returns `dv`): the connection is
marked dead and the level recurses with a decremented counter and the
remaining script. -/
theorem issueRequest_resp_retry (cfg : Cfg) (env : Env)
    (recur : Params → GSt → GSt) (p : Params) (a st : Nat) (h : RHeaders)
    (chunks : List String) (rest : List AttemptOutcome) (g : GSt)
    (payload dv : String)
    (hpay : payload = chunks.foldl (fun acc c => acc ++ c) "")
    (hscr : g.script = AttemptOutcome.resp st h
      (chunks.map StreamEvent.data ++ [StreamEvent.endEv]) :: rest)
    (hstream : p.asStream = false)
    (hdes : (ctIsJson h.contentType && !(p.method == "HEAD") &&
      !(payload == "")) = true → env.deserialize payload = Except.ok dv)
    (hisc : ignoredStatusCode p st = false)
    (hrst : retryStatusCode st = true)
    (ha : 0 < a) :
    issueRequest cfg env recur p a g = recur { p with krem := some (a - 1) }
      { g with script := rest,
               trace := g.trace ++ [Eff.emitReq, Eff.connReq p.body] ++
                 (if (ctIsJson h.contentType && !(p.method == "HEAD") &&
                     !(payload == "")) = true
                  then [Eff.deserTry] else []) ++ [Eff.markDead] } := by
  subst hpay
  unfold issueRequest
  simp only [emitEff_script, hscr]
  unfold respBranch
  rw [if_neg (by simp [hstream])]
  rw [processEventsF_data_chunks]
  simp only [processEventsF]
  unfold endLogicF
  by_cases hcond : (ctIsJson h.contentType && !(p.method == "HEAD") &&
      !(chunks.foldl (fun acc c => acc ++ c) "" == "")) = true
  · rw [if_pos hcond]
    simp only [hdes hcond]
    unfold endTail
    rw [if_pos (by simp [hisc, hrst])]
    rw [if_pos ha]
    simp [emitEff, hcond]
  · rw [if_neg hcond]
    unfold endTail
    rw [if_pos (by simp [hisc, hrst])]
    rw [if_pos ha]
    simp [emitEff, hcond]

/-- A completed non-stream exchange whose status triggers the retry
strategy but whose budget is exhausted, with body normalization
succeeding (deserialization, when attempted, returns `dv`; a HEAD body
is cast to `true`): the connection is marked dead, then processing
falls through to normal response delivery — the caller receives a
`ResponseError` carrying the normalized result. -/
theorem issueRequest_resp_exhausted (cfg : Cfg) (env : Env)
    (recur : Params → GSt → GSt) (p : Params) (st : Nat) (h : RHeaders)
    (chunks : List String) (rest : List AttemptOutcome) (g : GSt)
    (R : ResultRec) (payload dv : String)
    (hpay : payload = chunks.foldl (fun acc c => acc ++ c) "")
    (hscr : g.script = AttemptOutcome.resp st h
      (chunks.map StreamEvent.data ++ [StreamEvent.endEv]) :: rest)
    (hstream : p.asStream = false)
    (hw : h.warning = none)
    (hdes : (ctIsJson h.contentType && !(p.method == "HEAD") &&
      !(payload == "")) = true → env.deserialize payload = Except.ok dv)
    (hisc : ignoredStatusCode p st = false)
    (hrst : retryStatusCode st = true)
    (h400 : 400 ≤ st)
    (hdel : g.delivered = false)
    (hR : R = { body := (if (ctIsJson h.contentType && !(p.method == "HEAD") &&
                    !(payload == "")) = true then RBody.jsonVal dv
                 else if (p.method == "HEAD") = true then RBody.bTrue
                 else RBody.text payload),
                statusCode := some st, headers := some h,
                warnings := none }) :
    issueRequest cfg env recur p 0 g =
      { g with delivered := true,
               calls := g.calls ++ [(some (Err.responseError R), R)],
               script := rest,
               trace := g.trace ++ [Eff.emitReq, Eff.connReq p.body] ++
                 (if (ctIsJson h.contentType && !(p.method == "HEAD") &&
                     !(payload == "")) = true
                  then [Eff.deserTry] else []) ++
                 [Eff.markDead, Eff.emitResp,
                  Eff.deliver (some (Err.responseError R))] } := by
  subst hpay
  unfold issueRequest
  simp only [emitEff_script, hscr]
  unfold respBranch
  rw [if_neg (by simp [hstream])]
  rw [processEventsF_data_chunks]
  simp only [processEventsF, hw]
  unfold endLogicF
  by_cases hcond : (ctIsJson h.contentType && !(p.method == "HEAD") &&
      !(chunks.foldl (fun acc c => acc ++ c) "" == "")) = true
  · rw [if_pos hcond]
    simp only [hdes hcond]
    unfold endTail
    rw [if_pos (by simp [hisc, hrst])]
    rw [if_neg (by omega)]
    unfold finishResp
    rw [if_pos (by simp [hisc, h400])]
    rw [deliverCb_not_delivered _ _ _ (by simp [emitEff, hdel])]
    simp [emitEff, hR, hcond]
  · rw [if_neg hcond]
    unfold endTail
    rw [if_pos (by simp [hisc, hrst])]
    rw [if_neg (by omega)]
    unfold finishResp
    rw [if_pos (by simp [hisc, h400])]
    rw [deliverCb_not_delivered _ _ _ (by simp [emitEff, hdel])]
    simp [emitEff, hR, hcond]

/-- A network-level failure with an exhausted budget: the connection is
marked dead and the error is classified — a timeout is surfaced as-is,
any other failure is wrapped as a `ConnectionError` carrying the
original message and the request params. -/
theorem issueRequest_netErr_exhausted (cfg : Cfg) (env : Env)
    (recur : Params → GSt → GSt) (p : Params) (e : NetErr)
    (rest : List AttemptOutcome) (g : GSt) (E : Err)
    (hsfault : cfg.sniffOnConnectionFault = false)
    (hE : E = (match e with
      | NetErr.timeout => Err.timeoutErr
      | NetErr.failure m => Err.connectionError m p))
    (hscr : g.script = AttemptOutcome.netErr e :: rest)
    (hdel : g.delivered = false) :
    issueRequest cfg env recur p 0 g =
      { g with delivered := true,
               calls := g.calls ++ [(some E, {})],
               script := rest,
               trace := g.trace ++ [Eff.emitReq, Eff.connReq p.body,
                 Eff.markDead, Eff.emitErr, Eff.deliver (some E)] } := by
  cases e with
  | timeout =>
    unfold issueRequest
    simp only [emitEff_script, hscr]
    unfold netErrBranch
    simp only [hsfault, Bool.false_eq_true, if_false]
    rw [if_neg (by omega)]
    unfold deliverCb
    rw [if_neg (by simp [emitEff, hdel])]
    simp [emitEff, hE]
  | failure m =>
    unfold issueRequest
    simp only [emitEff_script, hscr]
    unfold netErrBranch
    simp only [hsfault, Bool.false_eq_true, if_false]
    rw [if_neg (by omega)]
    unfold deliverCb
    rw [if_neg (by simp [emitEff, hdel])]
    simp [emitEff, hE]

/-- C3 amended: for every completed non-stream HTTP exchange whose
status is 502, 503 or 504, is not in the request's ignore list, and
whose body normalization does not itself fail (deserialization, when
attempted, succeeds; HEAD bodies are cast to a boolean): the connection
is marked dead before any retry or terminal delivery; with attempts
remaining the request is retried through a fresh request level (fresh
connection selection included) with a decremented counter; with the
budget exhausted processing falls through to normal response handling
and the caller receives a `ResponseError` carrying the normalized
result.  By contrast, a network-level error with an exhausted budget
short-circuits: a timeout is surfaced as-is and any other failure is
wrapped as a `ConnectionError` carrying the original message and the
request params. -/
theorem claim_C3_amended :
    (∀ (cfg : Cfg) (env : Env) (fuel : Nat) (p : Params) (g : GSt)
        (st : Nat) (h : RHeaders) (chunks : List String)
        (rest : List AttemptOutcome) (a : Nat) (payload dv : String),
      env.connAvailable = true → cfg.sniffEnabled = false →
      cfg.suggestCompression = false →
      p.body = none → p.bulkBody = none → p.asStream = false →
      (st = 502 ∨ st = 503 ∨ st = 504) →
      inIgnoreList p st = false →
      payload = chunks.foldl (fun acc c => acc ++ c) "" →
      ((ctIsJson h.contentType && !(p.method == "HEAD") &&
        !(payload == "")) = true → env.deserialize payload = Except.ok dv) →
      resolveAttempts p.krem p.maxRetries cfg.maxRetries = a + 1 →
      g.script = AttemptOutcome.resp st h
        (chunks.map StreamEvent.data ++ [StreamEvent.endEv]) :: rest →
      requestGo cfg env (fuel + 1) p g =
        requestGo cfg env fuel
          { p with querystring := env.qserialize p.querystring,
                   timeout := jsOrNat p.requestTimeout cfg.requestTimeout,
                   krem := some a }
          { g with script := rest,
                   trace := g.trace ++ [Eff.resurrect, Eff.emitReq,
                       Eff.connReq none] ++
                     (if (ctIsJson h.contentType && !(p.method == "HEAD") &&
                         !(payload == "")) = true
                      then [Eff.deserTry] else []) ++ [Eff.markDead] }) ∧
    (∀ (cfg : Cfg) (env : Env) (fuel : Nat) (p : Params) (g : GSt)
        (st : Nat) (h : RHeaders) (chunks : List String)
        (rest : List AttemptOutcome) (R : ResultRec) (payload dv : String),
      env.connAvailable = true → cfg.sniffEnabled = false →
      cfg.suggestCompression = false →
      p.body = none → p.bulkBody = none → p.asStream = false →
      (st = 502 ∨ st = 503 ∨ st = 504) →
      inIgnoreList p st = false →
      payload = chunks.foldl (fun acc c => acc ++ c) "" →
      ((ctIsJson h.contentType && !(p.method == "HEAD") &&
        !(payload == "")) = true → env.deserialize payload = Except.ok dv) →
      h.warning = none →
      resolveAttempts p.krem p.maxRetries cfg.maxRetries = 0 →
      g.delivered = false →
      g.script = AttemptOutcome.resp st h
        (chunks.map StreamEvent.data ++ [StreamEvent.endEv]) :: rest →
      R = { body := (if (ctIsJson h.contentType && !(p.method == "HEAD") &&
                !(payload == "")) = true then RBody.jsonVal dv
             else if (p.method == "HEAD") = true then RBody.bTrue
             else RBody.text payload),
            statusCode := some st, headers := some h, warnings := none } →
      requestGo cfg env (fuel + 1) p g =
        { g with delivered := true,
                 calls := g.calls ++ [(some (Err.responseError R), R)],
                 script := rest,
                 trace := g.trace ++ [Eff.resurrect, Eff.emitReq,
                     Eff.connReq none] ++
                   (if (ctIsJson h.contentType && !(p.method == "HEAD") &&
                       !(payload == "")) = true
                    then [Eff.deserTry] else []) ++
                   [Eff.markDead, Eff.emitResp,
                    Eff.deliver (some (Err.responseError R))] }) ∧
    (∀ (cfg : Cfg) (env : Env) (fuel : Nat) (p : Params) (g : GSt)
        (e : NetErr) (rest : List AttemptOutcome) (E : Err),
      env.connAvailable = true → cfg.sniffEnabled = false →
      cfg.suggestCompression = false → cfg.sniffOnConnectionFault = false →
      p.body = none → p.bulkBody = none →
      resolveAttempts p.krem p.maxRetries cfg.maxRetries = 0 →
      g.delivered = false →
      g.script = AttemptOutcome.netErr e :: rest →
      E = (match e with
        | NetErr.timeout => Err.timeoutErr
        | NetErr.failure m => Err.connectionError m
            { p with querystring := env.qserialize p.querystring,
                     timeout := jsOrNat p.requestTimeout cfg.requestTimeout }) →
      requestGo cfg env (fuel + 1) p g =
        { g with delivered := true,
                 calls := g.calls ++ [(some E, {})],
                 script := rest,
                 trace := g.trace ++ [Eff.resurrect, Eff.emitReq,
                   Eff.connReq none, Eff.markDead, Eff.emitErr,
                   Eff.deliver (some E)] }) := by
  refine ⟨?_, ?_, ?_⟩
  · intro cfg env fuel p g st h chunks rest a payload dv hconn hsniff hcompr
      hb hbb hstream hst3 hign0 hpay hdes hatt hscr
    have hst404 : (st == 404) = false := by
      rcases hst3 with rfl | rfl | rfl <;> decide
    have hrst : retryStatusCode st = true := by
      rcases hst3 with rfl | rfl | rfl <;> decide
    have hisc : ignoredStatusCode p st = false := by
      simp [ignoredStatusCode, hign0, hst404]
    have hu : requestGo cfg env (fuel + 1) p g = requestStep cfg env
        (requestGo cfg env fuel) p g := rfl
    rw [hu, requestStep_plain cfg env _ p g hconn hsniff hcompr hb hbb]
    set p2 : Params := { p with querystring := env.qserialize p.querystring, timeout := jsOrNat p.requestTimeout cfg.requestTimeout } with hp2
    rw [issueRequest_resp_retry cfg env (requestGo cfg env fuel) p2
      (resolveAttempts p.krem p.maxRetries cfg.maxRetries) st h chunks rest
      (emitEff g Eff.resurrect) payload dv hpay
      (show (emitEff g Eff.resurrect).script = _ from hscr)
      (show p2.asStream = false from hstream)
      (show (ctIsJson h.contentType && !(p2.method == "HEAD") &&
        !(payload == "")) = true → env.deserialize payload = Except.ok dv
        from hdes)
      (show ignoredStatusCode p2 st = false from hisc) hrst
      (by rw [hatt]; omega)]
    congr 1
    · simp [hp2, hatt]
    · simp [hp2, emitEff, hb]
  · intro cfg env fuel p g st h chunks rest R payload dv hconn hsniff hcompr
      hb hbb hstream hst3 hign0 hpay hdes hw hatt0 hdel hscr hR
    have hst404 : (st == 404) = false := by
      rcases hst3 with rfl | rfl | rfl <;> decide
    have hrst : retryStatusCode st = true := by
      rcases hst3 with rfl | rfl | rfl <;> decide
    have h400 : 400 ≤ st := by
      rcases hst3 with rfl | rfl | rfl <;> omega
    have hisc : ignoredStatusCode p st = false := by
      simp [ignoredStatusCode, hign0, hst404]
    have hu : requestGo cfg env (fuel + 1) p g = requestStep cfg env
        (requestGo cfg env fuel) p g := rfl
    rw [hu, requestStep_plain cfg env _ p g hconn hsniff hcompr hb hbb,
      hatt0]
    set p2 : Params := { p with querystring := env.qserialize p.querystring, timeout := jsOrNat p.requestTimeout cfg.requestTimeout } with hp2
    rw [issueRequest_resp_exhausted cfg env (requestGo cfg env fuel) p2
      st h chunks rest (emitEff g Eff.resurrect) R payload dv hpay
      (show (emitEff g Eff.resurrect).script = _ from hscr)
      (show p2.asStream = false from hstream) hw
      (show (ctIsJson h.contentType && !(p2.method == "HEAD") &&
        !(payload == "")) = true → env.deserialize payload = Except.ok dv
        from hdes)
      (show ignoredStatusCode p2 st = false from hisc) hrst h400
      (show (emitEff g Eff.resurrect).delivered = false from hdel)
      (show R = _ from hR)]
    simp [hp2, emitEff, hb]
  · intro cfg env fuel p g e rest E hconn hsniff hcompr hsfault hb hbb
      hatt0 hdel hscr hE
    have hu : requestGo cfg env (fuel + 1) p g = requestStep cfg env
        (requestGo cfg env fuel) p g := rfl
    rw [hu, requestStep_plain cfg env _ p g hconn hsniff hcompr hb hbb,
      hatt0]
    set p2 : Params := { p with querystring := env.qserialize p.querystring, timeout := jsOrNat p.requestTimeout cfg.requestTimeout } with hp2
    rw [issueRequest_netErr_exhausted cfg env (requestGo cfg env fuel) p2
      e rest (emitEff g Eff.resurrect) E hsfault
      (show E = _ from hE)
      (show (emitEff g Eff.resurrect).script = _ from hscr)
      (show (emitEff g Eff.resurrect).delivered = false from hdel)]
    simp [hp2, emitEff, hb]

theorem claim_C3_witness :
    (requestGo {} env0 2 {}
        { script := [AttemptOutcome.resp 502 {} [StreamEvent.endEv]] } =
      requestGo {} env0 1
        { querystring := "", timeout := 30000, krem := some 2 }
        { script := [],
          trace := [Eff.resurrect, Eff.emitReq, Eff.connReq none,
            Eff.markDead] }) ∧
    (requestGo { maxRetries := 0 } env0 1 {}
        { script := [AttemptOutcome.resp 503
            { contentType := some "application/json" }
            [StreamEvent.data "x", StreamEvent.endEv]] } =
      { delivered := true,
        calls := [(some (Err.responseError
          { body := RBody.jsonVal "x", statusCode := some 503,
            headers := some { contentType := some "application/json" },
            warnings := none }),
          { body := RBody.jsonVal "x", statusCode := some 503,
            headers := some { contentType := some "application/json" },
            warnings := none })],
        script := [],
        trace := [Eff.resurrect, Eff.emitReq, Eff.connReq none,
          Eff.deserTry, Eff.markDead, Eff.emitResp,
          Eff.deliver (some (Err.responseError
            { body := RBody.jsonVal "x", statusCode := some 503,
              headers := some { contentType := some "application/json" },
              warnings := none }))] }) ∧
    (requestGo { maxRetries := 0 } env0 1 {}
        { script := [AttemptOutcome.netErr (NetErr.failure "boom")] } =
      { delivered := true,
        calls := [(some (Err.connectionError "boom"
          { querystring := "", timeout := 30000 }), {})],
        script := [],
        trace := [Eff.resurrect, Eff.emitReq, Eff.connReq none,
          Eff.markDead, Eff.emitErr,
          Eff.deliver (some (Err.connectionError "boom"
            { querystring := "", timeout := 30000 }))] }) := by
  refine ⟨?_, ?_, ?_⟩
  · have h := claim_C3_amended.1 {} env0 1 {}
      { script := [AttemptOutcome.resp 502 {} [StreamEvent.endEv]] }
      502 {} [] [] 2 "" "" rfl rfl rfl rfl rfl rfl (Or.inl rfl) rfl rfl
      (fun _ => rfl) (by decide) rfl
    rw [h]
    decide
  · have h := claim_C3_amended.2.1 { maxRetries := 0 } env0 0 {}
      { script := [AttemptOutcome.resp 503
          { contentType := some "application/json" }
          [StreamEvent.data "x", StreamEvent.endEv]] }
      503 { contentType := some "application/json" } ["x"] []
      { body := RBody.jsonVal "x", statusCode := some 503,
        headers := some { contentType := some "application/json" },
        warnings := none }
      "x" "x" rfl rfl rfl rfl rfl rfl (Or.inr (Or.inl rfl)) rfl
      (by decide) (fun _ => rfl) rfl rfl rfl rfl (by decide)
    rw [h]
    decide
  · have h := claim_C3_amended.2.2 { maxRetries := 0 } env0 0 {}
      { script := [AttemptOutcome.netErr (NetErr.failure "boom")] }
      (NetErr.failure "boom") []
      (Err.connectionError "boom" { querystring := "", timeout := 30000 })
      rfl rfl rfl rfl rfl rfl (by decide) rfl rfl (by decide)
    simpa using h

/-- C3 counterexample, falsifying the claim as stated at two concrete
inputs, each a completed exchange with status 502 not in the ignore
list.  First, a stream-mode exchange: it is delivered to the caller as
a success without the connection ever being marked dead and without a
`ResponseError`.  Second, a non-stream json exchange whose body fails
to deserialize: the deserialization error is delivered before the
502/503/504 classifier ever runs, again with no mark-dead and no
`ResponseError`. -/
theorem claim_C3_counterexample :
    (request {} env0 5 { asStream := true }
      [AttemptOutcome.resp 502 {} []]).trace.contains Eff.markDead = false ∧
    (request {} env0 5 { asStream := true }
      [AttemptOutcome.resp 502 {} []]).calls =
      [(none, { body := RBody.streamBody, statusCode := some 502,
                headers := some {}, warnings := none })] ∧
    (request {} { env0 with deserialize := fun _ => Except.error "bad json" }
      5 {} [AttemptOutcome.resp 502 { contentType := some "application/json" }
        [StreamEvent.data "x", StreamEvent.endEv]]).trace.contains
      Eff.markDead = false ∧
    (request {} { env0 with deserialize := fun _ => Except.error "bad json" }
      5 {} [AttemptOutcome.resp 502 { contentType := some "application/json" }
        [StreamEvent.data "x", StreamEvent.endEv]]).calls =
      [(some (Err.serdeErr "bad json"),
        { body := RBody.null, statusCode := some 502,
          headers := some { contentType := some "application/json" },
          warnings := none })] := by
  decide

/-- C4 counterexample: a request carrying both a single-document body
and a bulk body is not rejected: a network call is issued (carrying the
serialized document body, the bulk body being silently ignored) and the
exchange completes as a success. -/
theorem claim_C4_counterexample :
    (request {} env0 5
      { body := some (Body.obj "doc"), bulkBody := some (Body.str "bulk") }
      [AttemptOutcome.resp 200 {} [StreamEvent.endEv]]).trace.contains
        (Eff.connReq (some (Body.str "doc"))) = true ∧
    (request {} env0 5
      { body := some (Body.obj "doc"), bulkBody := some (Body.str "bulk") }
      [AttemptOutcome.resp 200 {} [StreamEvent.endEv]]).calls =
      [(none, { body := RBody.text "", statusCode := some 200,
                headers := some {}, warnings := none })] := by
  decide

end ESTransport
